import Mathlib

/-!
Shallow embedding of `src/subnet.py` (a CLI IPv4 subnet calculator built on
Python's `ipaddress` standard library module).

Addresses are modelled as natural numbers below `2^32` (Python works on the
unbounded `int` values underlying `IPv4Address`).  The textual command-line
address argument is modelled by the value it parses to (`IPText`): the dotted
decimal value plus the optional embedded "/p" suffix.  The relevant behaviour
of the `ipaddress` module (CPython, version ≥ 3.8) is embedded directly:

  * `ip_network(..., strict=False)` masks stray host bits instead of failing;
  * `netmask`/`hostmask` are computed from `_ALL_ONES = 2^32 - 1` exactly as
    in `ipaddress._ip_int_from_prefix`;
  * `hosts()` special-cases masks /31 (both addresses are hosts) and /32
    (the single address is a host), as set up in `IPv4Network.__init__`;
  * `subnets(new_prefix=q)` enumerates child networks from the network
    address in steps of `2^(32-q)`.

Python exceptions that escape a function are modelled with `Except String`;
`exit(1)` after printing (in `validate_input`) is modelled by the dedicated
`ValidateResult.exit_process` outcome.  Message strings keep the shape of the
CPython messages but drop the quote characters.
-/

/-- Model of the parsed command-line address text: the 32-bit value of the
dotted-decimal part together with the optional embedded "/p" suffix
(`none` when the text is a bare address). -/
structure IPText where
  ip_val : Nat
  embedded_cidr : Option Nat
deriving Repr, DecidableEq

/-- Dotted-decimal rendering of a 32-bit value, big-endian octets
(`str(IPv4Address(n))`). -/
def ip_str (a : Nat) : String :=
  toString (a / 2^24 % 256) ++ "." ++ toString (a / 2^16 % 256) ++ "." ++
    toString (a / 2^8 % 256) ++ "." ++ toString (a % 256)

/-- Textual form of the address argument, with its embedded suffix if any. -/
def addr_text (a : IPText) : String :=
  ip_str a.ip_val ++ (match a.embedded_cidr with
    | none => ""
    | some e => "/" ++ toString e)

/-- Python `repr`-style text of an optional integer as it appears inside the
f-string: `None` for `none`. -/
def cidr_repr (c : Option Int) : String :=
  match c with
  | none => "None"
  | some v => toString v

/-- Text interpolated by `f"{ip_address}/{cidr}"`. -/
def addr_cidr_text (a : IPText) (cidr : Option Int) : String :=
  addr_text a ++ "/" ++ cidr_repr cidr

/-- Message of the `ValueError` raised by `ipaddress.ip_network` on a string
that does not parse as a network. -/
def value_error_msg (s : String) : String :=
  "ValueError: " ++ s ++ " does not appear to be an IPv4 or IPv6 network"

/-- Message of the `TypeError` raised by `new_cidr - cidr` when both are
`None` (first statement of `calculate_multiple_subnets` with no CIDR). -/
def type_error_sub_msg : String :=
  "TypeError: unsupported operand type(s) for -: NoneType and NoneType"

/-- Netmask integer for a given CIDR, as computed by
`ipaddress._ip_int_from_prefix`: `ALL_ONES ^ (ALL_ONES >> prefixlen)`. -/
def netmask (cidr : Nat) : Nat :=
  (2^32 - 1) ^^^ ((2^32 - 1) >>> cidr)

/-- Hostmask integer: `int(netmask) ^ ALL_ONES`. -/
def hostmask (cidr : Nat) : Nat :=
  netmask cidr ^^^ (2^32 - 1)

/-- Network address of `ip_network(..., strict=False)`: the input address
with the netmask applied (stray host bits are discarded). -/
def network_address (ip cidr : Nat) : Nat :=
  ip &&& netmask cidr

/-- Broadcast address: `int(network_address) | int(hostmask)`. -/
def broadcast_address (ip cidr : Nat) : Nat :=
  network_address ip cidr ||| hostmask cidr

/-- Integer values of `list(ip_network.hosts())` for the network given by
`(ip, cidr)`.  CPython (≥ 3.8) `IPv4Network.__init__` rebinds `hosts`: for a
/31 it is `__iter__` (every address from network to broadcast), for a /32 it
returns the single network address; otherwise `_BaseNetwork.hosts` yields
`range(network + 1, broadcast)`. -/
def hosts (ip cidr : Nat) : List Nat :=
  if cidr = 32 - 1 then
    (List.range (broadcast_address ip cidr - network_address ip cidr + 1)).map
      (fun i => network_address ip cidr + i)
  else if cidr = 32 then
    [network_address ip cidr]
  else
    (List.range (broadcast_address ip cidr - network_address ip cidr - 1)).map
      (fun i => network_address ip cidr + 1 + i)

/-- Model of `ipaddress.ip_network(f"{ip_address}/{cidr}", strict=False)`.
Returns the pair (address value, prefixlen) of the parsed network object or
the `ValueError` message.  The parse fails when `cidr` is `None` (the text
"addr/None"), when the address text already carries an embedded "/p" suffix
(the text then has two slashes), or when the explicit CIDR is outside
`[0, 32]`. -/
def ip_network_with_cidr (a : IPText) (cidr : Option Int) :
    Except String (Nat × Nat) :=
  match cidr with
  | none => .error (value_error_msg (addr_cidr_text a none))
  | some c =>
    if a.embedded_cidr ≠ none then
      .error (value_error_msg (addr_cidr_text a (some c)))
    else if c < 0 ∨ 32 < c then
      .error (value_error_msg (addr_cidr_text a (some c)))
    else
      .ok (a.ip_val, c.toNat)

/-- Model of `ipaddress.ip_network(ip_address, strict=False)` on the bare
address text: a bare dotted-decimal parses as a /32 host route, an embedded
"/p" suffix supplies the prefixlen when it is in range. -/
def ip_network_plain (a : IPText) : Except String (Nat × Nat) :=
  match a.embedded_cidr with
  | none => .ok (a.ip_val, 32)
  | some e =>
    if 32 < e then .error (value_error_msg (addr_text a))
    else .ok (a.ip_val, e)

/-- Message printed by `validate_input` when the requested subnet count
exceeds capacity. -/
def max_subnets_msg (subnets : Int) (max_subnets : Nat) (cidr : Nat) : String :=
  "Requested number of subnets (" ++ toString subnets ++
    ") exceeds the maximum possible (" ++ toString max_subnets ++
    ") with CIDR " ++ toString cidr ++ "."

/-- Outcome of `validate_input`: either it returns normally (`ok`) or it
prints `Input validation error: ...` and terminates the process via
`exit(1)` (`exit_process`). -/
inductive ValidateResult where
  | ok : ValidateResult
  | exit_process (code : Nat) (printed : String) : ValidateResult
deriving Repr, DecidableEq

/-- Model of `validate_input(ip_address, cidr, subnets)`: parses the network
(with the explicit CIDR when given, from the bare text otherwise), derives
the effective CIDR into a local variable, and checks the requested subnet
count against `2 ** (32 - cidr)` when the count is truthy (not `None`, not
`0`).  Any `ValueError` is caught, printed, and the process exits with
code 1. -/
def validate_input (a : IPText) (cidr : Option Int) (subnets : Option Int) :
    ValidateResult :=
  let parsed := match cidr with
    | some _ => ip_network_with_cidr a cidr
    | none => ip_network_plain a
  match parsed with
  | .error e => .exit_process 1 ("Input validation error: " ++ e)
  | .ok (_, plen) =>
    let c : Nat := match cidr with
      | some v => v.toNat
      | none => plen
    match subnets with
    | none => .ok
    | some s =>
      if s = 0 then .ok
      else
        let max_subnets : Nat := 2^(32 - c)
        if (max_subnets : Int) < s then
          .exit_process 1
            ("Input validation error: " ++ max_subnets_msg s max_subnets c)
        else .ok

/-- Result record of `calculate_subnet_details` (the four dictionary
entries, in source order). -/
structure SubnetDetails where
  subnet_mask : String
  network_addr : String
  broadcast_addr : String
  usable_ip_range : String
deriving Repr, DecidableEq

/-- Body of `calculate_subnet_details` once the network `(ip, cidr)` has
been parsed: the usable range is `f"{hosts[0]} - {hosts[-1]}"` when the host
list is non-empty and `"N/A"` otherwise. -/
def subnet_details_core (ip cidr : Nat) : SubnetDetails :=
  let usable := hosts ip cidr
  { subnet_mask := ip_str (netmask cidr)
  , network_addr := ip_str (network_address ip cidr)
  , broadcast_addr := ip_str (broadcast_address ip cidr)
  , usable_ip_range :=
      match usable with
      | [] => "N/A"
      | x :: xs => ip_str x ++ " - " ++ ip_str ((x :: xs).getLast (by simp)) }

/-- Model of `calculate_subnet_details(ip_address, cidr)`: parses
`f"{ip_address}/{cidr}"` (an unhandled `ValueError` escapes as `.error`) and
builds the details record. -/
def calculate_subnet_details (a : IPText) (cidr : Option Int) :
    Except String SubnetDetails :=
  match ip_network_with_cidr a cidr with
  | .error e => .error e
  | .ok (ip, c) => .ok (subnet_details_core ip c)

/-- Iterations of the search loop `while 2 ** (new_cidr - cidr) < subnets:
new_cidr += 1`, tracked through the difference `d = new_cidr - cidr` and a
structural iteration budget.  The budget is only a recursion bound: theorem
`loop_delta_while_eq` below shows that with the budget used by `loop_delta`
this function satisfies exactly the fixpoint equation of the `while` loop. -/
def loop_delta_fuel (subnets : Int) : Nat → Nat → Nat
  | d, 0 => d
  | d, fuel + 1 =>
    if (2:Int)^d < subnets then loop_delta_fuel subnets (d + 1) fuel else d

/-- Final value of `new_cidr - cidr` after the search loop.  The budget
`subnets.toNat + 1` is enough for the loop to reach its exit condition from
any start (`2^j > j ≥ subnets` at `j = subnets.toNat`). -/
def loop_delta (subnets : Int) (d : Nat) : Nat :=
  loop_delta_fuel subnets d (subnets.toNat + 1)

/-- Network addresses of `list(ip_network.subnets(new_prefix=new_cidr))`:
starting at the parent network address, `2^(new_cidr - cidr)` blocks in
steps of `2^(32 - new_cidr)` (the `range(start, end, step)` of
`_BaseNetwork.subnets`). -/
def subnet_list (ip cidr new_cidr : Nat) : List Nat :=
  (List.range (2^(new_cidr - cidr))).map
    (fun i => network_address ip cidr + i * 2^(32 - new_cidr))

/-- Result record of `calculate_multiple_subnets` for one child subnet (the
five dictionary entries, in source order). -/
structure SubnetItem where
  subnet : String
  subnet_mask : String
  network_addr : String
  broadcast_addr : String
  usable_ip_range : String
deriving Repr, DecidableEq

/-- Details record built for one child network of the split, whose network
address is `saddr` and whose prefixlen is `new_cidr`.  Python indexes
`list(subnet.hosts())[0]` and `[-1]` without an emptiness guard; the guard
branch below models the `IndexError` text and is unreachable for
`new_cidr ≤ 32`. -/
def subnet_item (new_cidr saddr : Nat) : SubnetItem :=
  { subnet := ip_str saddr ++ "/" ++ toString new_cidr
  , subnet_mask := ip_str (netmask new_cidr)
  , network_addr := ip_str saddr
  , broadcast_addr := ip_str (broadcast_address saddr new_cidr)
  , usable_ip_range :=
      match hosts saddr new_cidr with
      | [] => "IndexError: list index out of range"
      | x :: xs =>
          ip_str x ++ " - " ++ ip_str ((x :: xs).getLast (by simp)) }

/-- Model of `calculate_multiple_subnets(ip_address, cidr, subnets)`.  With
`cidr = None` the very first loop test evaluates `None - None` and raises a
`TypeError`.  Otherwise the loop finds `new_cidr`, the network is parsed
(an out-of-range CIDR or doubled "/p" raises `ValueError`), and
`subnets(new_prefix=new_cidr)` enumerates the children — yielding the
network itself when its prefixlen is already 32, and raising `ValueError`
when `new_cidr` exceeds 32. -/
def calculate_multiple_subnets (a : IPText) (cidr : Option Int)
    (subnets : Int) : Except String (List SubnetItem) :=
  match cidr with
  | none => .error type_error_sub_msg
  | some _ =>
    let d := loop_delta subnets 0
    match ip_network_with_cidr a cidr with
    | .error e => .error e
    | .ok (ip, c) =>
      if c = 32 then
        .ok ((subnet_list ip 32 32).map (subnet_item 32))
      else if 32 < c + d then
        .error ("ValueError: prefix length diff " ++ toString (c + d) ++
          " is invalid for netblock " ++ ip_str (network_address ip c) ++
          "/" ++ toString c)
      else
        .ok ((subnet_list ip c (c + d)).map (subnet_item (c + d)))

/-- Overall result of one run of `main` (excluding the printing layer):
`exited` is the `exit(1)` taken inside `validate_input`, `crashed` is an
unhandled exception escaping the calculation functions, and
`single`/`multi` are the values handed to `display_results`. -/
inductive RunResult where
  | exited (code : Nat) (printed : String) : RunResult
  | crashed (msg : String) : RunResult
  | single (d : SubnetDetails) : RunResult
  | multi (l : List SubnetItem) : RunResult
deriving Repr, DecidableEq

/-- Model of `main()` after argument parsing: validate, then dispatch on the
truthiness of `args.subnets` (`None` and `0` are falsy). -/
def main_fn (a : IPText) (cidr subnets : Option Int) : RunResult :=
  match validate_input a cidr subnets with
  | .exit_process code msg => .exited code msg
  | .ok =>
    let singleRun : RunResult :=
      match calculate_subnet_details a cidr with
      | .ok r => .single r
      | .error e => .crashed e
    match subnets with
    | some s =>
      if s = 0 then singleRun
      else
        match calculate_multiple_subnets a cidr s with
        | .ok l => .multi l
        | .error e => .crashed e
    | none => singleRun

/-! ### Lemmas about the prefix-search loop -/

/-- Invariant of the fuel-indexed loop body: as soon as some iteration
within the budget would see the exit condition, the final state is at least
the start, satisfies the exit condition, and every strictly earlier state
satisfied the loop condition. -/
theorem loop_delta_fuel_spec (n : Int) :
    ∀ fuel d, (∃ j, j < fuel ∧ ¬((2:Int)^(d + j) < n)) →
      d ≤ loop_delta_fuel n d fuel ∧
      ¬((2:Int)^(loop_delta_fuel n d fuel) < n) ∧
      ∀ t, d ≤ t → t < loop_delta_fuel n d fuel → (2:Int)^t < n := by
  intro fuel
  induction fuel with
  | zero =>
    rintro d ⟨j, hj, _⟩
    omega
  | succ f ih =>
    rintro d ⟨j, hj, hexit⟩
    simp only [loop_delta_fuel]
    split
    case isTrue h =>
      have hj0 : j ≠ 0 := by
        rintro rfl
        simp only [Nat.add_zero] at hexit
        exact hexit h
      have hstep : d + 1 + (j - 1) = d + j := by omega
      obtain ⟨i1, i2, i3⟩ := ih (d + 1) ⟨j - 1, by omega, by rw [hstep]; exact hexit⟩
      refine ⟨by omega, i2, ?_⟩
      intro t ht htl
      rcases Nat.eq_or_lt_of_le ht with heq | hlt
      · rw [← heq]; exact h
      · exact i3 t hlt htl
    case isFalse h =>
      exact ⟨Nat.le_refl d, h, fun t h1 h2 => absurd h1 (by omega)⟩

/-- The loop budget `n.toNat + 1` always contains an exit point. -/
theorem loop_exit_exists (n : Int) (d : Nat) :
    ∃ j, j < n.toNat + 1 ∧ ¬((2:Int)^(d + j) < n) := by
  refine ⟨n.toNat, by omega, ?_⟩
  have h1 : n ≤ (n.toNat : Int) := Int.self_le_toNat n
  have h2 : (n.toNat : Int) < (2:Int)^(n.toNat) := by
    exact_mod_cast Nat.lt_two_pow n.toNat
  have h3 : (2:Int)^(n.toNat) ≤ (2:Int)^(d + n.toNat) := by
    apply pow_le_pow_right₀ (by norm_num)
    omega
  omega

/-- Characterization of the loop result: the final difference dominates the
start, meets the exit condition, and is minimal among such values. -/
theorem loop_delta_spec (n : Int) (d : Nat) :
    d ≤ loop_delta n d ∧ ¬((2:Int)^(loop_delta n d) < n) ∧
    ∀ t, d ≤ t → t < loop_delta n d → (2:Int)^t < n :=
  loop_delta_fuel_spec n (n.toNat + 1) d (loop_exit_exists n d)

/-- Minimality of the loop result: any state at or past the start that
meets the exit condition bounds the result. -/
theorem loop_delta_le (n : Int) (d j : Nat) (hdj : d ≤ j)
    (hexit : ¬((2:Int)^j < n)) : loop_delta n d ≤ j := by
  by_contra hcon
  push_neg at hcon
  exact hexit ((loop_delta_spec n d).2.2 j hdj hcon)

/-- The total function `loop_delta` satisfies exactly the fixpoint equation
of `while 2 ** d < subnets: d += 1`: the budget threaded through
`loop_delta_fuel` is invisible. -/
theorem loop_delta_while_eq (n : Int) (d : Nat) :
    loop_delta n d = if (2:Int)^d < n then loop_delta n (d + 1) else d := by
  split
  case isTrue h =>
    obtain ⟨a1, a2, _⟩ := loop_delta_spec n d
    obtain ⟨b1, b2, _⟩ := loop_delta_spec n (d + 1)
    have hgt : d + 1 ≤ loop_delta n d := by
      rcases Nat.eq_or_lt_of_le a1 with heq | h2
      · exact absurd h (heq ▸ a2)
      · omega
    exact Nat.le_antisymm (loop_delta_le n d _ (by omega) b2)
      (loop_delta_le n (d + 1) _ hgt a2)
  case isFalse h =>
    exact Nat.le_antisymm (loop_delta_le n d d (Nat.le_refl d) h)
      (loop_delta_spec n d).1

/-! ### Bridge lemmas between the bitwise and arithmetic views -/

/-- Arithmetic value of the netmask for every valid CIDR. -/
theorem netmask_eq : ∀ c, c ≤ 32 → netmask c = 2^(32 - c) * (2^c - 1) := by
  decide

/-- Arithmetic value of the hostmask for every valid CIDR. -/
theorem hostmask_eq : ∀ c, c ≤ 32 → hostmask c = 2^(32 - c) - 1 := by
  decide

/-- The masking of the base address is division rounding: all host bits are
cleared. -/
theorem network_address_eq (ip c : Nat) (hip : ip < 2^32) (hc : c ≤ 32) :
    network_address ip c = 2^(32 - c) * (ip / 2^(32 - c)) := by
  apply Nat.eq_of_testBit_eq
  intro j
  rw [network_address, netmask_eq c hc, ← Nat.shiftRight_eq_div_pow]
  simp only [Nat.testBit_and, Nat.testBit_mul_pow_two, Nat.testBit_shiftRight,
    Nat.testBit_two_pow_sub_one]
  by_cases hk : 32 - c ≤ j
  · have hkj : 32 - c + (j - (32 - c)) = j := by omega
    rw [hkj]
    by_cases hj : j < 32
    · have hjc : j - (32 - c) < c := by omega
      simp [hk, hjc]
    · have hlt : ip < 2^j := lt_of_lt_of_le hip
        (Nat.pow_le_pow_right (by norm_num) (by omega))
      simp [Nat.testBit_lt_two_pow hlt]
  · simp [hk]

/-- The broadcast address is the network address plus the hostmask: the
bitwise or is a carry-free addition. -/
theorem broadcast_address_eq (ip c : Nat) (hip : ip < 2^32) (hc : c ≤ 32) :
    broadcast_address ip c = network_address ip c + (2^(32 - c) - 1) := by
  have hb : 2^(32 - c) - 1 < 2^(32 - c) := by
    have := Nat.two_pow_pos (32 - c)
    omega
  rw [broadcast_address, hostmask_eq c hc, network_address_eq ip c hip hc]
  exact (Nat.mul_add_lt_is_or hb (ip / 2^(32 - c))).symm

/-- The network address has no set host bits. -/
theorem net_and_hostmask (ip c : Nat) (hip : ip < 2^32) (hc : c ≤ 32) :
    network_address ip c &&& hostmask c = 0 := by
  rw [network_address_eq ip c hip hc, hostmask_eq c hc,
    Nat.and_pow_two_sub_one_eq_mod]
  exact Nat.mul_mod_right _ _

/-- The network address never exceeds the base address. -/
theorem network_address_le (ip c : Nat) : network_address ip c ≤ ip :=
  Nat.and_le_left

/-- The block size of the network divides its network address. -/
theorem network_address_dvd (ip c : Nat) (hip : ip < 2^32) (hc : c ≤ 32) :
    2^(32 - c) ∣ network_address ip c := by
  rw [network_address_eq ip c hip hc]
  exact Dvd.intro _ rfl

/-- A block-aligned in-range value is its own network address. -/
theorem network_address_of_dvd (x c : Nat) (hx : x < 2^32) (hc : c ≤ 32)
    (hd : 2^(32 - c) ∣ x) : network_address x c = x := by
  rw [network_address_eq x c hx hc]
  exact Nat.mul_div_cancel' hd

/-- The network's whole block fits under `2^32`. -/
theorem net_add_block_le (ip c : Nat) (hip : ip < 2^32) (hc : c ≤ 32) :
    network_address ip c + 2^(32 - c) ≤ 2^32 := by
  rw [network_address_eq ip c hip hc]
  have h32 : 2^(32 - c) * 2^c = 2^32 := by
    rw [← pow_add]
    congr 1
    omega
  have hm : ip / 2^(32 - c) < 2^c := Nat.div_lt_of_lt_mul (h32 ▸ hip)
  calc 2^(32 - c) * (ip / 2^(32 - c)) + 2^(32 - c)
      = 2^(32 - c) * (ip / 2^(32 - c) + 1) := by ring
    _ ≤ 2^(32 - c) * 2^c := Nat.mul_le_mul_left _ hm
    _ = 2^32 := h32

/-! ### Lemmas about the host list -/

/-- Host list of a network with at least two host addresses: the open range
between network and broadcast address. -/
theorem hosts_of_le30 (ip c : Nat) (hip : ip < 2^32) (hc : c ≤ 30) :
    hosts ip c = (List.range (2^(32 - c) - 2)).map
      (fun i => network_address ip c + 1 + i) := by
  have hb := broadcast_address_eq ip c hip (by omega)
  have harg : broadcast_address ip c - network_address ip c - 1 =
      2^(32 - c) - 2 := by
    rw [hb]
    omega
  rw [hosts, if_neg (by omega : ¬ c = 32 - 1), if_neg (by omega : ¬ c = 32),
    harg]

/-- Host list of a /31: both addresses of the point-to-point pair. -/
theorem hosts_of_31 (ip : Nat) (hip : ip < 2^32) :
    hosts ip 31 = [network_address ip 31, broadcast_address ip 31] := by
  have hb := broadcast_address_eq ip 31 hip (by omega)
  have harg : broadcast_address ip 31 - network_address ip 31 + 1 = 2 := by
    rw [hb]
    omega
  rw [hosts, if_pos rfl, harg, hb]
  norm_num [List.range_succ]

/-- Host list of a /32: the single address. -/
theorem hosts_of_32 (ip : Nat) : hosts ip 32 = [network_address ip 32] := by
  rw [hosts]
  norm_num

/-- The host list of a valid network is never empty (CPython ≥ 3.8). -/
theorem hosts_ne_nil (ip c : Nat) (hip : ip < 2^32) (hc : c ≤ 32) :
    hosts ip c ≠ [] := by
  rcases Nat.lt_or_ge c 31 with h31 | h31
  · rw [hosts_of_le30 ip c hip (by omega)]
    have h4 : 2^2 ≤ 2^(32 - c) := Nat.pow_le_pow_right (by norm_num) (by omega)
    simp only [ne_eq, List.map_eq_nil_iff, List.range_eq_nil]
    omega
  · interval_cases c
    · rw [hosts_of_31 ip hip]; simp
    · rw [hosts_of_32 ip]; simp

/-- A rendered host range never collides with the literal "N/A". -/
theorem range_str_ne_na (x y : Nat) : ip_str x ++ " - " ++ ip_str y ≠ "N/A" := by
  intro h
  have hl := congrArg String.length h
  have e1 : (" - " : String).length = 3 := rfl
  have e2 : ("N/A" : String).length = 3 := rfl
  have e3 : ("." : String).length = 1 := rfl
  simp only [ip_str, String.length_append, e1, e2, e3] at hl
  omega

/-! ### Evaluation helpers for the validation and parsing layer -/

/-- Parsing a bare address with an explicit in-range CIDR succeeds. -/
theorem ip_network_with_cidr_ok (ip c : Nat) (hc : c ≤ 32) :
    ip_network_with_cidr ⟨ip, none⟩ (some (c : Int)) = .ok (ip, c) := by
  have h1 : ¬((c : Int) < 0 ∨ 32 < (c : Int)) := by
    push_neg
    constructor
    · exact Int.natCast_nonneg c
    · exact_mod_cast hc
  simp [ip_network_with_cidr, h1, hc]

/-- Parsing the bare address text succeeds whenever the embedded suffix, if
present, is in range; the prefixlen defaults to 32. -/
theorem ip_network_plain_ok (ip : Nat) (emb : Option Nat)
    (h : ∀ e, emb = some e → e ≤ 32) :
    ip_network_plain ⟨ip, emb⟩ = .ok (ip, emb.getD 32) := by
  cases emb with
  | none => rfl
  | some e => simp [ip_network_plain, Nat.not_lt.mpr (h e rfl)]

/-- Normal form of `validate_input` on a valid bare address, explicit CIDR
and explicit count. -/
theorem validate_some_eval (ip c : Nat) (n : Int) (hc : c ≤ 32) :
    validate_input ⟨ip, none⟩ (some (c : Int)) (some n) =
      if n = 0 then .ok
      else if ((2^(32 - c) : Nat) : Int) < n then
        .exit_process 1
          ("Input validation error: " ++ max_subnets_msg n (2^(32 - c)) c)
      else .ok := by
  simp [validate_input, ip_network_with_cidr_ok ip c hc]

/-! ### Claim theorems -/

/-- C7: for every input address (host bits set or not) and valid CIDR,
construction does not fail: the details call returns a result, the host bits
are discarded by masking so that `networkAddress & ~mask = 0`, and
`broadcastAddress = networkAddress | ~mask` (with `~mask` the 32-bit
complement `0xFFFFFFFF ^ mask`). -/
theorem C7_host_bits_masked (ip c : Nat) (hip : ip < 2^32) (hc : c ≤ 32) :
    network_address ip c &&& ((2^32 - 1) ^^^ netmask c) = 0
    ∧ broadcast_address ip c =
        network_address ip c ||| ((2^32 - 1) ^^^ netmask c)
    ∧ calculate_subnet_details ⟨ip, none⟩ (some (c : Int)) =
        .ok (subnet_details_core ip c) := by
  have hxor : (2^32 - 1) ^^^ netmask c = hostmask c := by
    rw [hostmask, Nat.xor_comm]
  refine ⟨?_, ?_, ?_⟩
  · rw [hxor]
    exact net_and_hostmask ip c hip hc
  · rw [hxor]
    rfl
  · rw [calculate_subnet_details, ip_network_with_cidr_ok ip c hc]

/-- Witness for C7 at 192.168.1.1/24, an address with host bits set. -/
theorem C7_witness :
    network_address 3232235777 24 &&& ((2^32 - 1) ^^^ netmask 24) = 0
    ∧ broadcast_address 3232235777 24 =
        network_address 3232235777 24 ||| ((2^32 - 1) ^^^ netmask 24)
    ∧ calculate_subnet_details ⟨3232235777, none⟩ (some ((24 : Nat) : Int)) =
        .ok (subnet_details_core 3232235777 24) :=
  C7_host_bits_masked 3232235777 24 (by norm_num) (by norm_num)

/-- C2: for every CIDR `c ≤ 32` and count `n` with `1 ≤ n ≤ 2^(32-c)`, the
search loop of `calculate_multiple_subnets` ends at `new_cidr = c + d` where
`c + d` is the unique smallest `q ≥ c` with `2^(q-c) ≥ n`; for `n = 1` the
loop leaves the CIDR unchanged. -/
theorem C2_minimal_new_cidr (c : Nat) (n : Int) (hc : c ≤ 32) (hn1 : 1 ≤ n)
    (hn2 : n ≤ (2:Int)^(32 - c)) :
    c ≤ c + loop_delta n 0
    ∧ n ≤ (2:Int)^((c + loop_delta n 0) - c)
    ∧ (∀ q, c ≤ q → n ≤ (2:Int)^(q - c) → c + loop_delta n 0 ≤ q)
    ∧ (∀ q, c ≤ q → n ≤ (2:Int)^(q - c) →
        (∀ r, c ≤ r → n ≤ (2:Int)^(r - c) → q ≤ r) → q = c + loop_delta n 0)
    ∧ (n = 1 → c + loop_delta n 0 = c) := by
  obtain ⟨s1, s2, s3⟩ := loop_delta_spec n 0
  have hsub : (c + loop_delta n 0) - c = loop_delta n 0 := by omega
  have hmin : ∀ q, c ≤ q → n ≤ (2:Int)^(q - c) → c + loop_delta n 0 ≤ q := by
    intro q hq hpow
    have := loop_delta_le n 0 (q - c) (Nat.zero_le _) (not_lt.mpr hpow)
    omega
  refine ⟨by omega, ?_, hmin, ?_, ?_⟩
  · rw [hsub]
    exact not_lt.mp s2
  · intro q hq hpow hleast
    have h1 := hmin q hq hpow
    have h2 := hleast (c + loop_delta n 0) (by omega)
      (by rw [hsub]; exact not_lt.mp s2)
    omega
  · intro h1
    subst h1
    have := loop_delta_le 1 0 0 (Nat.le_refl 0) (by norm_num)
    omega

/-- Witness for C2 at CIDR 24 with 4 requested subnets. -/
theorem C2_witness :
    24 ≤ 24 + loop_delta 4 0
    ∧ (4:Int) ≤ (2:Int)^((24 + loop_delta 4 0) - 24)
    ∧ (∀ q, 24 ≤ q → (4:Int) ≤ (2:Int)^(q - 24) → 24 + loop_delta 4 0 ≤ q)
    ∧ (∀ q, 24 ≤ q → (4:Int) ≤ (2:Int)^(q - 24) →
        (∀ r, 24 ≤ r → (4:Int) ≤ (2:Int)^(r - 24) → q ≤ r) →
        q = 24 + loop_delta 4 0)
    ∧ ((4:Int) = 1 → 24 + loop_delta 4 0 = 24) :=
  C2_minimal_new_cidr 24 4 (by norm_num) (by norm_num) (by norm_num)

/-- C9: for every CIDR `c ≤ 32` and count `n` with `1 ≤ n ≤ 2^(32-c)`, the
minimal-prefix search loop terminates after at most `32 - c` (hence at most
32) iterations and ends with a new CIDR of at most 32 (termination itself is
built in: `loop_delta` is a total function equal to the `while` loop by
`loop_delta_while_eq`). -/
theorem C9_loop_iterations (c : Nat) (n : Int) (hc : c ≤ 32) (hn1 : 1 ≤ n)
    (hn2 : n ≤ (2:Int)^(32 - c)) :
    loop_delta n 0 ≤ 32 - c ∧ loop_delta n 0 ≤ 32
    ∧ c + loop_delta n 0 ≤ 32 := by
  have h := loop_delta_le n 0 (32 - c) (Nat.zero_le _) (not_lt.mpr hn2)
  omega

/-- Witness for C9 at CIDR 24 with 4 requested subnets. -/
theorem C9_witness :
    loop_delta 4 0 ≤ 32 - 24 ∧ loop_delta 4 0 ≤ 32
    ∧ 24 + loop_delta 4 0 ≤ 32 :=
  C9_loop_iterations 24 4 (by norm_num) (by norm_num) (by norm_num)

/-- C4: for every valid address and CIDR `c ≤ 32` and every requested count
`n`, `validate_input` fails with the capacity error (printing the
max-subnets message and exiting with code 1) if and only if
`n > 2^(32-c)`. -/
theorem C4_capacity_iff (ip c : Nat) (n : Int) (hip : ip < 2^32)
    (hc : c ≤ 32) :
    validate_input ⟨ip, none⟩ (some (c : Int)) (some n) =
      .exit_process 1
        ("Input validation error: " ++ max_subnets_msg n (2^(32 - c)) c)
    ↔ ((2^(32 - c) : Nat) : Int) < n := by
  rw [validate_some_eval ip c n hc]
  have hpos : (0:Int) < ((2^(32 - c) : Nat) : Int) := by
    exact_mod_cast Nat.two_pow_pos (32 - c)
  by_cases h0 : n = 0
  · subst h0
    simp only [if_pos rfl]
    constructor
    · intro hcontra
      exact absurd hcontra (by simp)
    · intro hcontra
      omega
  · by_cases hlt : ((2^(32 - c) : Nat) : Int) < n
    · simp [h0, hlt]
    · simp [h0, hlt]

/-- Witness for C4: Scenario E, CIDR 24 with 300 requested subnets is
rejected because 2^8 = 256 < 300. -/
theorem C4_witness :
    validate_input ⟨3232235776, none⟩ (some ((24 : Nat) : Int)) (some 300) =
      .exit_process 1
        ("Input validation error: " ++ max_subnets_msg 300 (2^(32 - 24)) 24) :=
  (C4_capacity_iff 3232235776 24 300 (by norm_num) (by norm_num)).mpr
    (by norm_num)

deriving instance DecidableEq for Except

/-- C1 counterexample: for 10.0.0.0/31 (Scenario D) the host list has two
elements — CPython's `hosts()` gives the /31 its point-to-point pair — so
the "Usable IP Range" field of `calculate_subnet_details` is
"10.0.0.0 - 10.0.0.1", not "N/A", refuting "empty and rendered as N/A iff
the prefix length is 31 or 32". -/
theorem C1_counterexample :
    (hosts 167772160 31).length = 2
    ∧ calculate_subnet_details ⟨167772160, none⟩ (some 31) =
        .ok (subnet_details_core 167772160 31)
    ∧ (subnet_details_core 167772160 31).usable_ip_range =
        "10.0.0.0 - 10.0.0.1"
    ∧ "10.0.0.0 - 10.0.0.1" ≠ "N/A" := by
  refine ⟨by decide, by decide, by decide, by decide⟩

/-- C1 (amended): for every valid input the usable range is never empty and
never rendered "N/A": for `c ≤ 30` it runs from `networkAddress + 1` to
`broadcastAddress - 1` with length `2^(32-c) - 2`; a /31 is special-cased to
the point-to-point pair `[networkAddress, broadcastAddress]`; a /32 reports
its single address. -/
theorem C1_amended_usable_range (ip c : Nat) (hip : ip < 2^32)
    (hc : c ≤ 32) :
    hosts ip c ≠ []
    ∧ (subnet_details_core ip c).usable_ip_range ≠ "N/A"
    ∧ (c ≤ 30 → (hosts ip c).length = 2^(32 - c) - 2
        ∧ hosts ip c = (List.range (2^(32 - c) - 2)).map
            (fun i => network_address ip c + 1 + i))
    ∧ (c = 31 → hosts ip c = [network_address ip c, broadcast_address ip c])
    ∧ (c = 32 → hosts ip c = [network_address ip c]) := by
  have hne := hosts_ne_nil ip c hip hc
  refine ⟨hne, ?_, ?_, ?_, ?_⟩
  · rcases hh : hosts ip c with _ | ⟨x, xs⟩
    · exact absurd hh hne
    · simp only [subnet_details_core, hh]
      exact range_str_ne_na _ _
  · intro h30
    refine ⟨?_, hosts_of_le30 ip c hip h30⟩
    rw [hosts_of_le30 ip c hip h30]
    simp
  · intro h31
    subst h31
    exact hosts_of_31 ip hip
  · intro h32
    subst h32
    exact hosts_of_32 ip

/-- Witness for the amended C1 at 10.0.0.0/31. -/
theorem C1_amended_witness :
    hosts 167772160 31 ≠ []
    ∧ (subnet_details_core 167772160 31).usable_ip_range ≠ "N/A"
    ∧ (31 ≤ 30 → (hosts 167772160 31).length = 2^(32 - 31) - 2
        ∧ hosts 167772160 31 = (List.range (2^(32 - 31) - 2)).map
            (fun i => network_address 167772160 31 + 1 + i))
    ∧ (31 = 31 → hosts 167772160 31 =
        [network_address 167772160 31, broadcast_address 167772160 31])
    ∧ (31 = 32 → hosts 167772160 31 = [network_address 167772160 31]) :=
  C1_amended_usable_range 167772160 31 (by norm_num) (by norm_num)

/-- The search loop exits immediately when at most one subnet (or a
non-positive count) is requested. -/
theorem loop_delta_of_le_one (n : Int) (h : n ≤ 1) : loop_delta n 0 = 0 := by
  have h1 := loop_delta_le n 0 0 (Nat.le_refl 0) (by simp; omega)
  omega

/-- The one-element index range. -/
theorem list_range_one : List.range 1 = [0] := rfl

/-- A request for at most one subnet (including non-positive counts) leaves
the network whole: `calculate_multiple_subnets` returns the singleton list
with the original network. -/
theorem calc_multi_single (ip c : Nat) (n : Int) (hc : c ≤ 32) (hn : n ≤ 1) :
    calculate_multiple_subnets ⟨ip, none⟩ (some (c : Int)) n =
      .ok [subnet_item c (network_address ip c)] := by
  have hd : loop_delta n 0 = 0 := loop_delta_of_le_one n hn
  have hok := ip_network_with_cidr_ok ip c hc
  by_cases h32 : c = 32
  · subst h32
    norm_num at hok
    simp [calculate_multiple_subnets, hok, subnet_list, list_range_one]
  · simp [calculate_multiple_subnets, hok, hd, h32, subnet_list,
      (show ¬ 32 < c by omega), list_range_one]

/-- C5 counterexample: with a zero requested subnet count the program does
not reject — validation passes and `main` computes and returns the single
network's details. -/
theorem C5_counterexample :
    validate_input ⟨3232235776, none⟩ (some 24) (some 0) = .ok
    ∧ main_fn ⟨3232235776, none⟩ (some 24) (some 0) =
        .single (subnet_details_core 3232235776 24) := by
  constructor
  · decide
  · decide

/-- C5 (amended): a zero or negative requested subnet count is never
rejected: validation passes; a zero count is falsy and the program falls
back to single-network mode, while a negative count reaches
`calculate_multiple_subnets` and yields the original network as the sole
"subnet". -/
theorem C5_amended_not_rejected (ip c : Nat) (n : Int) (hip : ip < 2^32)
    (hc : c ≤ 32) (hn : n ≤ 0) :
    validate_input ⟨ip, none⟩ (some (c : Int)) (some n) = .ok
    ∧ (n = 0 → main_fn ⟨ip, none⟩ (some (c : Int)) (some n) =
        .single (subnet_details_core ip c))
    ∧ (n < 0 → main_fn ⟨ip, none⟩ (some (c : Int)) (some n) =
        .multi [subnet_item c (network_address ip c)]) := by
  have hpos : (0:Int) < ((2^(32 - c) : Nat) : Int) := by
    exact_mod_cast Nat.two_pow_pos (32 - c)
  have hnl : ¬ ((2^(32 - c) : Nat) : Int) < n := by omega
  have hval : validate_input ⟨ip, none⟩ (some (c : Int)) (some n) = .ok := by
    rw [validate_some_eval ip c n hc]
    by_cases h0 : n = 0
    · rw [if_pos h0]
    · rw [if_neg h0, if_neg hnl]
  refine ⟨hval, ?_, ?_⟩
  · intro h0
    subst h0
    simp [main_fn, hval, calculate_subnet_details,
      ip_network_with_cidr_ok ip c hc]
  · intro hneg
    have hne : n ≠ 0 := by omega
    simp [main_fn, hval, hne, calc_multi_single ip c n hc (by omega)]

/-- Witness for the amended C5 at 192.168.1.0/24 with count -3. -/
theorem C5_amended_witness :
    validate_input ⟨3232235776, none⟩ (some ((24 : Nat) : Int)) (some (-3)) =
      .ok
    ∧ ((-3 : Int) = 0 →
        main_fn ⟨3232235776, none⟩ (some ((24 : Nat) : Int)) (some (-3)) =
          .single (subnet_details_core 3232235776 24))
    ∧ ((-3 : Int) < 0 →
        main_fn ⟨3232235776, none⟩ (some ((24 : Nat) : Int)) (some (-3)) =
          .multi [subnet_item 24 (network_address 3232235776 24)]) :=
  C5_amended_not_rejected 3232235776 24 (-3) (by norm_num) (by norm_num)
    (by norm_num)

/-- C6 counterexample: on the invalid prefix 33 the validation layer does
not return an error value — it prints the message and terminates the
process with exit code 1 (modelled by `exit_process`/`exited`). -/
theorem C6_counterexample :
    validate_input ⟨3232235776, none⟩ (some 33) none =
      .exit_process 1 ("Input validation error: " ++
        value_error_msg (addr_cidr_text ⟨3232235776, none⟩ (some 33)))
    ∧ main_fn ⟨3232235776, none⟩ (some 33) none =
        .exited 1 ("Input validation error: " ++
          value_error_msg (addr_cidr_text ⟨3232235776, none⟩ (some 33))) := by
  constructor
  · decide
  · decide

/-- C6 (amended): for every invalid input (out-of-range explicit CIDR, or a
subnet count exceeding capacity) the original code prints
`Input validation error: ...` and aborts the process with exit code 1
inside `validate_input`; no error result value is returned to `main`. -/
theorem C6_amended_exit_on_error (ip : Nat) (cv : Int) (s : Option Int)
    (hip : ip < 2^32)
    (hbad : (cv < 0 ∨ 32 < cv) ∨
      (0 ≤ cv ∧ cv ≤ 32 ∧
        ∃ v, s = some v ∧ ((2^(32 - cv.toNat) : Nat) : Int) < v)) :
    ∃ msg, validate_input ⟨ip, none⟩ (some cv) s = .exit_process 1 msg
      ∧ main_fn ⟨ip, none⟩ (some cv) s = .exited 1 msg := by
  rcases hbad with hbad | ⟨h0, h32, v, rfl, hv⟩
  · have hparse : ip_network_with_cidr ⟨ip, none⟩ (some cv) =
        .error (value_error_msg (addr_cidr_text ⟨ip, none⟩ (some cv))) := by
      simp [ip_network_with_cidr, hbad]
    refine ⟨"Input validation error: " ++
      value_error_msg (addr_cidr_text ⟨ip, none⟩ (some cv)), ?_, ?_⟩
    · simp [validate_input, hparse]
    · simp [main_fn, validate_input, hparse]
  · have hc : cv.toNat ≤ 32 := by omega
    have hcast : ((cv.toNat : Nat) : Int) = cv := by omega
    have hv0 : v ≠ 0 := by
      have hpos : (0:Int) < ((2^(32 - cv.toNat) : Nat) : Int) := by
        exact_mod_cast Nat.two_pow_pos (32 - cv.toNat)
      omega
    have hval : validate_input ⟨ip, none⟩ (some ((cv.toNat : Nat) : Int))
        (some v) = .exit_process 1 ("Input validation error: " ++
          max_subnets_msg v (2^(32 - cv.toNat)) cv.toNat) := by
      rw [validate_some_eval ip cv.toNat v hc, if_neg hv0, if_pos hv]
    rw [hcast] at hval
    exact ⟨_, hval, by simp [main_fn, hval]⟩

/-- Witness for the amended C6 at CIDR 33 (invalid prefix). -/
theorem C6_amended_witness :
    ∃ msg, validate_input ⟨3232235776, none⟩ (some 33) none =
        .exit_process 1 msg
      ∧ main_fn ⟨3232235776, none⟩ (some 33) none = .exited 1 msg :=
  C6_amended_exit_on_error 3232235776 33 none (by norm_num)
    (Or.inl (Or.inr (by norm_num)))

/-- C10 counterexample: with address text 192.168.1.0/24, no explicit CIDR
and 4 requested subnets, validation succeeds and the run crashes — but with
the `TypeError` from evaluating `new_cidr - cidr` on `None`, before any
"<address>/None" string is built, not with the claimed `ValueError`. -/
theorem C10_counterexample :
    validate_input ⟨3232235776, some 24⟩ none (some 4) = .ok
    ∧ main_fn ⟨3232235776, some 24⟩ none (some 4) =
        .crashed type_error_sub_msg
    ∧ calculate_multiple_subnets ⟨3232235776, some 24⟩ none 4 =
        .error type_error_sub_msg
    ∧ type_error_sub_msg ≠
        value_error_msg (addr_cidr_text ⟨3232235776, some 24⟩ none) := by
  refine ⟨by decide, by decide, by decide, by decide⟩

/-- C10 (amended): without an explicit CIDR argument, `validate_input`
succeeds (for a well-formed address and a feasible count — the derived
prefix lives only in a local variable), but the run can never produce a
result: in single mode `calculate_subnet_details` builds "<address>/None"
and raises `ValueError`; in multi mode `calculate_multiple_subnets` raises
`TypeError` at `new_cidr - cidr` before any string is built. -/
theorem C10_amended_no_result (ip : Nat) (emb : Option Nat) (s : Option Int)
    (hip : ip < 2^32) (hemb : ∀ e, emb = some e → e ≤ 32)
    (hs : ∀ v, s = some v → v ≤ ((2^(32 - emb.getD 32) : Nat) : Int)) :
    validate_input ⟨ip, emb⟩ none s = .ok
    ∧ ((s = none ∨ s = some 0) → main_fn ⟨ip, emb⟩ none s =
        .crashed (value_error_msg (addr_cidr_text ⟨ip, emb⟩ none)))
    ∧ (∀ v, s = some v → v ≠ 0 →
        main_fn ⟨ip, emb⟩ none s = .crashed type_error_sub_msg)
    ∧ (∀ r, main_fn ⟨ip, emb⟩ none s ≠ .single r)
    ∧ (∀ l, main_fn ⟨ip, emb⟩ none s ≠ .multi l) := by
  have hplain := ip_network_plain_ok ip emb hemb
  have hval : validate_input ⟨ip, emb⟩ none s = .ok := by
    cases s with
    | none => simp only [validate_input, hplain]
    | some v =>
      have hv := hs v rfl
      simp only [validate_input, hplain]
      by_cases hv0 : v = 0
      · rw [if_pos hv0]
      · rw [if_neg hv0, if_neg (not_lt.mpr hv)]
  have hdet : calculate_subnet_details ⟨ip, emb⟩ none =
      .error (value_error_msg (addr_cidr_text ⟨ip, emb⟩ none)) := by
    simp [calculate_subnet_details, ip_network_with_cidr]
  have hsingle : (s = none ∨ s = some 0) → main_fn ⟨ip, emb⟩ none s =
      .crashed (value_error_msg (addr_cidr_text ⟨ip, emb⟩ none)) := by
    rintro (rfl | rfl)
    · simp [main_fn, hval, hdet]
    · simp [main_fn, hval, hdet]
  have hmulti : ∀ v, s = some v → v ≠ 0 →
      main_fn ⟨ip, emb⟩ none s = .crashed type_error_sub_msg := by
    rintro v rfl hv0
    simp [main_fn, hval, hv0, calculate_multiple_subnets]
  have hcrash : ∃ m, main_fn ⟨ip, emb⟩ none s = .crashed m := by
    rcases s with _ | v
    · exact ⟨_, hsingle (Or.inl rfl)⟩
    · by_cases hv0 : v = 0
      · subst hv0
        exact ⟨_, hsingle (Or.inr rfl)⟩
      · exact ⟨_, hmulti v rfl hv0⟩
  obtain ⟨m, hm⟩ := hcrash
  refine ⟨hval, hsingle, hmulti, ?_, ?_⟩
  · intro r hr
    rw [hm] at hr
    exact RunResult.noConfusion hr
  · intro l hl
    rw [hm] at hl
    exact RunResult.noConfusion hl

/-- Witness for the amended C10 at 192.168.1.0/24 (embedded prefix only)
with 4 requested subnets. -/
theorem C10_amended_witness :
    validate_input ⟨3232235776, some 24⟩ none (some 4) = .ok
    ∧ ((some (4:Int) = none ∨ some (4:Int) = some 0) →
        main_fn ⟨3232235776, some 24⟩ none (some 4) =
          .crashed (value_error_msg (addr_cidr_text ⟨3232235776, some 24⟩ none)))
    ∧ (∀ v, some (4:Int) = some v → v ≠ 0 →
        main_fn ⟨3232235776, some 24⟩ none (some 4) =
          .crashed type_error_sub_msg)
    ∧ (∀ r, main_fn ⟨3232235776, some 24⟩ none (some 4) ≠ .single r)
    ∧ (∀ l, main_fn ⟨3232235776, some 24⟩ none (some 4) ≠ .multi l) :=
  C10_amended_no_result 3232235776 (some 24) (some 4) (by norm_num)
    (by intro e he; injection he with he2; omega)
    (by intro v hv; injection hv with hv2; subst hv2; decide)

/-- C3: for every valid network `(ip, c)` and every new CIDR `q` with
`c ≤ q ≤ 32`, the split enumerates exactly `2^(q-c)` children, starting at
the parent's network address and stepping by `2^(32-q)` in strictly
ascending order; each child is its own network address at prefix `q`; and
every address of the parent's `[network, broadcast]` range lies in exactly
one child's `[network, broadcast]` range (no gaps, no overlaps). -/
theorem C3_split_tiling (ip c q : Nat) (hip : ip < 2^32) (hcq : c ≤ q)
    (hq : q ≤ 32) :
    (subnet_list ip c q).length = 2^(q - c)
    ∧ (∀ i, ∀ h : i < (subnet_list ip c q).length,
        (subnet_list ip c q).get ⟨i, h⟩ =
          network_address ip c + i * 2^(32 - q))
    ∧ (subnet_list ip c q).Pairwise (· < ·)
    ∧ (∀ cc, cc ∈ subnet_list ip c q → network_address cc q = cc)
    ∧ (∀ x, (network_address ip c ≤ x ∧ x ≤ broadcast_address ip c) ↔
        ∃! cc, cc ∈ subnet_list ip c q ∧ cc ≤ x
          ∧ x ≤ broadcast_address cc q) := by
  have hc : c ≤ 32 := le_trans hcq hq
  have hBpos : 0 < 2^(32 - q) := Nat.two_pow_pos _
  have hF1 : 2^(32 - c) = 2^(q - c) * 2^(32 - q) := by
    rw [← pow_add]
    congr 1
    omega
  have hnetdvd : (2^(32 - q) : Nat) ∣ network_address ip c :=
    dvd_trans (pow_dvd_pow 2 (by omega)) (network_address_dvd ip c hip hc)
  have hblock := net_add_block_le ip c hip hc
  have hchild : ∀ i, i < 2^(q - c) →
      network_address (network_address ip c + i * 2^(32 - q)) q =
        network_address ip c + i * 2^(32 - q)
      ∧ broadcast_address (network_address ip c + i * 2^(32 - q)) q =
        network_address ip c + i * 2^(32 - q) + (2^(32 - q) - 1) := by
    intro i hi
    have h1 : i * 2^(32 - q) + 2^(32 - q) ≤ 2^(q - c) * 2^(32 - q) := by
      calc i * 2^(32 - q) + 2^(32 - q) = (i + 1) * 2^(32 - q) := by ring
        _ ≤ 2^(q - c) * 2^(32 - q) := Nat.mul_le_mul_right _ hi
    have hlt : network_address ip c + i * 2^(32 - q) < 2^32 := by omega
    have hdvd2 : (2^(32 - q) : Nat) ∣
        network_address ip c + i * 2^(32 - q) :=
      Dvd.dvd.add hnetdvd (dvd_mul_left _ i)
    have h4 := network_address_of_dvd _ q hlt hq hdvd2
    refine ⟨h4, ?_⟩
    rw [broadcast_address_eq _ q hlt hq, h4]
  refine ⟨by simp [subnet_list], ?_, ?_, ?_, ?_⟩
  · intro i h
    simp [subnet_list]
  · rw [subnet_list, List.pairwise_map]
    refine List.Pairwise.imp ?_ (List.pairwise_lt_range _)
    intro a b hab
    exact Nat.add_lt_add_left ((Nat.mul_lt_mul_right hBpos).mpr hab) _
  · intro cc hmem
    simp only [subnet_list, List.mem_map, List.mem_range] at hmem
    obtain ⟨i, hi, rfl⟩ := hmem
    exact (hchild i hi).1
  · intro x
    rw [broadcast_address_eq ip c hip hc]
    constructor
    · rintro ⟨hx1, hx2⟩
      have ht : x - network_address ip c < 2^(q - c) * 2^(32 - q) := by
        have h2c : 0 < 2^(32 - c) := Nat.two_pow_pos _
        omega
      set t := x - network_address ip c with htdef
      set j := t / 2^(32 - q) with hjdef
      have hj : j < 2^(q - c) :=
        Nat.div_lt_of_lt_mul (by rwa [Nat.mul_comm] at ht)
      have hdm : 2^(32 - q) * j + t % 2^(32 - q) = t := Nat.div_add_mod t _
      rw [Nat.mul_comm] at hdm
      have hmod : t % 2^(32 - q) < 2^(32 - q) := Nat.mod_lt _ hBpos
      obtain ⟨hna, hba⟩ := hchild j hj
      refine ⟨network_address ip c + j * 2^(32 - q), ⟨?_, ?_, ?_⟩, ?_⟩
      · simp only [subnet_list, List.mem_map, List.mem_range]
        exact ⟨j, hj, rfl⟩
      · omega
      · rw [hba]
        omega
      · rintro y ⟨hymem, hy1, hy2⟩
        simp only [subnet_list, List.mem_map, List.mem_range] at hymem
        obtain ⟨i2, hi2, rfl⟩ := hymem
        obtain ⟨hna2, hba2⟩ := hchild i2 hi2
        rw [hba2] at hy2
        have hi2j : i2 * 2^(32 - q) / 2^(32 - q) = i2 :=
          Nat.mul_div_cancel i2 hBpos
        have h1 : i2 * 2^(32 - q) ≤ t := by omega
        have h2 : t < (i2 + 1) * 2^(32 - q) := by
          have hexp : (i2 + 1) * 2^(32 - q) = i2 * 2^(32 - q) + 2^(32 - q) :=
            by ring
          omega
        have : t / 2^(32 - q) = i2 := Nat.div_eq_of_lt_le h1 h2
        rw [← hjdef] at this
        rw [this]
    · rintro ⟨cc, ⟨hmem, h1, h2⟩, _⟩
      simp only [subnet_list, List.mem_map, List.mem_range] at hmem
      obtain ⟨i, hi, rfl⟩ := hmem
      obtain ⟨hna, hba⟩ := hchild i hi
      rw [hba] at h2
      have hle : i * 2^(32 - q) + 2^(32 - q) ≤ 2^(q - c) * 2^(32 - q) := by
        calc i * 2^(32 - q) + 2^(32 - q) = (i + 1) * 2^(32 - q) := by ring
          _ ≤ 2^(q - c) * 2^(32 - q) := Nat.mul_le_mul_right _ hi
      constructor
      · omega
      · omega

/-- Witness for C3: splitting 192.168.1.0/24 into /26 children. -/
theorem C3_witness :
    (subnet_list 3232235776 24 26).length = 2^(26 - 24)
    ∧ (∀ i, ∀ h : i < (subnet_list 3232235776 24 26).length,
        (subnet_list 3232235776 24 26).get ⟨i, h⟩ =
          network_address 3232235776 24 + i * 2^(32 - 26))
    ∧ (subnet_list 3232235776 24 26).Pairwise (· < ·)
    ∧ (∀ cc, cc ∈ subnet_list 3232235776 24 26 →
        network_address cc 26 = cc)
    ∧ (∀ x, (network_address 3232235776 24 ≤ x
          ∧ x ≤ broadcast_address 3232235776 24) ↔
        ∃! cc, cc ∈ subnet_list 3232235776 24 26 ∧ cc ≤ x
          ∧ x ≤ broadcast_address cc 26) :=
  C3_split_tiling 3232235776 24 26 (by norm_num) (by norm_num) (by norm_num)

set_option maxRecDepth 100000 in
/-- C8: Scenario B — for 192.168.1.0 with CIDR 24 and 4 desired subnets the
program chooses the new CIDR 26 and returns exactly the children
192.168.1.0/26, 192.168.1.64/26, 192.168.1.128/26, 192.168.1.192/26 in that
order, each with a usable host range of 62 addresses. -/
theorem C8_scenario_b :
    24 + loop_delta 4 0 = 26
    ∧ calculate_multiple_subnets ⟨3232235776, none⟩ (some 24) 4 =
        .ok [ { subnet := "192.168.1.0/26"
              , subnet_mask := "255.255.255.192"
              , network_addr := "192.168.1.0"
              , broadcast_addr := "192.168.1.63"
              , usable_ip_range := "192.168.1.1 - 192.168.1.62" }
            , { subnet := "192.168.1.64/26"
              , subnet_mask := "255.255.255.192"
              , network_addr := "192.168.1.64"
              , broadcast_addr := "192.168.1.127"
              , usable_ip_range := "192.168.1.65 - 192.168.1.126" }
            , { subnet := "192.168.1.128/26"
              , subnet_mask := "255.255.255.192"
              , network_addr := "192.168.1.128"
              , broadcast_addr := "192.168.1.191"
              , usable_ip_range := "192.168.1.129 - 192.168.1.190" }
            , { subnet := "192.168.1.192/26"
              , subnet_mask := "255.255.255.192"
              , network_addr := "192.168.1.192"
              , broadcast_addr := "192.168.1.255"
              , usable_ip_range := "192.168.1.193 - 192.168.1.254" } ]
    ∧ (∀ t, t ∈ subnet_list 3232235776 24 26 → (hosts t 26).length = 62) := by
  refine ⟨by decide, by decide, by decide⟩

